import Mathlib

/-!
Shallow embedding of `pkg/utils/hostexec/hostexec.go` from synology-csi.

The Go file implements a command wrapper with a three-stage pipeline:
`resolveCmd` (logical-name remapping), `wrapEnv` (environment
normalization / search-path fallback) and `wrapChroot` (chroot wrapping),
composed by `wrap`.  The only external effect is read-only `os.Stat`
calls, which we model with an abstract filesystem mapping a path string
to a stat outcome.
-/

/-- Outcome of an `os.Stat` call: success (carrying the `IsDir` flag of
the resulting file info), failure with a not-exist error (the case
`os.IsNotExist(err)` recognizes), or failure with any other error. -/
inductive StatResult where
  | ok (isDir : Bool)
  | errNotExist
  | errOther
deriving DecidableEq

/-- Abstract read-only filesystem state: the result `os.Stat` returns
for each path.  Fixed for the duration of one `wrap` call. -/
structure FS where
  stat : String → StatResult

/-- Truth of `err == nil` for the modelled stat call. -/
def statOk : StatResult → Bool
  | .ok _ => true
  | _ => false

/-- Truth of `os.IsNotExist(err)` for the modelled stat call. -/
def statIsNotExist : StatResult → Bool
  | .errNotExist => true
  | _ => false

/-- Truth of `err == nil && fileinfo.IsDir()` for the modelled stat call. -/
def statIsDir : StatResult → Bool
  | .ok d => d
  | _ => false

/-- The `defaultSearchPath` variable from hostexec.go: the fixed search directories
used both as the injected `PATH` value and as the fallback probe order. -/
def defaultSearchPath : List String :=
  ["/usr/local/sbin", "/usr/local/bin", "/usr/sbin", "/usr/bin", "/sbin", "/bin"]

/-- The `hostexec` struct: the command remapping table (`commandMap`,
a Go map modelled as a partial function) and the chroot directory
(`chrootDir`, empty string when chroot is disabled). -/
structure hostexec where
  commandMap : String → Option String
  chrootDir : String

/-- The `New` constructor from hostexec.go: if `chrootDir` is non-empty, stat it and fail
unless the stat succeeds and reports a directory; otherwise construct the
wrapper.  The embedding returns the error message in `Except`. -/
def New (fs : FS) (cmdMap : String → Option String) (chrootDir : String) :
    Except String hostexec :=
  if chrootDir ≠ "" then
    match fs.stat chrootDir with
    | .ok true => .ok ⟨cmdMap, chrootDir⟩
    | _ => .error "chroot directory does not exist or is not a directory"
  else
    .ok ⟨cmdMap, chrootDir⟩

/-- Stage 1, `resolveCmd` from hostexec.go: replace `cmd` by its `commandMap`
entry when the key is present with a non-empty value; identity
otherwise.  Arguments pass through unchanged. -/
def resolveCmd (h : hostexec) (cmd : String) (args : List String) :
    String × List String :=
  match h.commandMap cmd with
  | none => (cmd, args)
  | some c => if c = "" then (cmd, args) else (c, args)

/-- Models Go `strings.TrimPrefix(s, pre)`: drop the leading occurrence
of `pre` from `s` when `s` starts with it, otherwise return `s`
unchanged. -/
def trimPfx (s pre : String) : String :=
  if pre.data.isPrefixOf s.data then ⟨s.data.drop pre.data.length⟩ else s

/-- The `for _, dir := range defaultSearchPath` loop of `wrapEnv`:
probe each directory in order for `dir + "/" + cmd` (prefixed by the
chroot directory when set); on the first stat success return the path
(with the chroot prefix trimmed, since `wrapChroot` re-adds it). -/
def findInSearchPath (fs : FS) (chrootDir cmd : String) :
    List String → Option String
  | [] => none
  | dir :: rest =>
    let testPath :=
      if chrootDir ≠ "" then chrootDir ++ (dir ++ "/" ++ cmd)
      else dir ++ "/" ++ cmd
    if statOk (fs.stat testPath) then
      some (if chrootDir ≠ "" then trimPfx testPath chrootDir else testPath)
    else
      findInSearchPath fs chrootDir cmd rest

/-- Stage 2, `wrapEnv` from hostexec.go: explicit paths (containing `/`) pass
through; otherwise, when the env helper is missing (stat fails with a
not-exist error) probe the search path and fall back to the identity,
and when the helper is there (or stat failed for another reason)
rewrite the invocation through `/usr/bin/env -i PATH=...`. -/
def wrapEnv (fs : FS) (h : hostexec) (cmd : String) (args : List String) :
    String × List String :=
  if cmd.data.contains '/' then (cmd, args)
  else
    let envPath :=
      if h.chrootDir ≠ "" then h.chrootDir ++ "/usr/bin/env" else "/usr/bin/env"
    if statIsNotExist (fs.stat envPath) then
      match findInSearchPath fs h.chrootDir cmd defaultSearchPath with
      | some p => (p, args)
      | none => (cmd, args)
    else
      ("/usr/bin/env",
        "-i" :: ("PATH=" ++ String.intercalate ":" defaultSearchPath) :: cmd :: args)

/-- Stage 3, `wrapChroot` from hostexec.go: identity when chroot is disabled,
otherwise invoke `/usr/sbin/chroot` with the chroot directory and the
command prepended to the arguments. -/
def wrapChroot (h : hostexec) (cmd : String) (args : List String) :
    String × List String :=
  if h.chrootDir = "" then (cmd, args)
  else ("/usr/sbin/chroot", h.chrootDir :: cmd :: args)

/-- The `wrap` pipeline from hostexec.go: the three stages composed in order. -/
def wrap (fs : FS) (h : hostexec) (cmd : String) (args : List String) :
    String × List String :=
  let r1 := resolveCmd h cmd args
  let r2 := wrapEnv fs h r1.1 r1.2
  wrapChroot h r2.1 r2.2

/-! ## Shared concrete states used by the witnesses -/

/-- Filesystem where every stat fails with a not-exist error. -/
def fsEmpty : FS := ⟨fun _ => .errNotExist⟩

/-- Filesystem where only the chrooted env helper exists. -/
def fsEnvPresent : FS :=
  ⟨fun p => if p = "/host/usr/bin/env" then .ok false else .errNotExist⟩

/-- Filesystem where only `/host/bin/foo` exists. -/
def fsBinFoo : FS :=
  ⟨fun p => if p = "/host/bin/foo" then .ok false else .errNotExist⟩

/-- Filesystem where stat of the chrooted env helper fails with an
error other than not-exist (e.g. permission denied). -/
def fsEnvDenied : FS :=
  ⟨fun p => if p = "/host/usr/bin/env" then .errOther else .errNotExist⟩

/-- Remapping table with one real entry and one empty entry. -/
def mapW : String → Option String := fun s =>
  if s = "iscsiadm" then some "/usr/local/bin/iscsiadm"
  else if s = "blank" then some "" else none

/-- Trimming a prefix that was just concatenated on recovers the rest:
the inverse relationship `wrapEnv` relies on between the chroot prefix
it adds for probing and the trim before `wrapChroot` re-adds it. -/
theorem trimPfx_append (p t : String) : trimPfx (p ++ t) p = t := by
  unfold trimPfx
  rw [String.data_append]
  simp [ List.isPrefixOf_iff_prefix]

example : wrap ⟨fun _ => .errNotExist⟩ ⟨fun _ => none, "/host"⟩ "foo" [] =
    ("/usr/sbin/chroot", ["/host", "foo"]) := by decide

example : wrap ⟨fun p => if p = "/host/usr/bin/env" then .ok false else .errNotExist⟩
    ⟨fun _ => none, "/host"⟩ "foo" ["-x"] =
    ("/usr/sbin/chroot",
      ["/host", "/usr/bin/env", "-i",
       "PATH=/usr/local/sbin:/usr/local/bin:/usr/sbin:/usr/bin:/sbin:/bin",
       "foo", "-x"]) := by decide

example : wrap ⟨fun p => if p = "/host/bin/foo" then .ok false else .errNotExist⟩
    ⟨fun _ => none, "/host"⟩ "foo" [] =
    ("/usr/sbin/chroot", ["/host", "/bin/foo"]) := by decide

/-! ## Claims -/

/-- C5: `resolveCmd` returns the remapped value with the arguments
unchanged exactly when the name is a key of the map with a non-empty
value; for an absent key or a key mapped to the empty string it is the
identity. -/
theorem resolveCmd_spec (h : hostexec) (name : String) (args : List String) :
    (∀ v, h.commandMap name = some v → v ≠ "" → resolveCmd h name args = (v, args)) ∧
    (h.commandMap name = none → resolveCmd h name args = (name, args)) ∧
    (h.commandMap name = some "" → resolveCmd h name args = (name, args)) := by
  refine ⟨fun v hv hne => ?_, fun hn => ?_, fun he => ?_⟩ <;>
    simp [resolveCmd, *]

/-- Witness for C5 on a concrete table: a remapped name, an absent name
and an empty-valued name. -/
theorem resolveCmd_spec_witness :
    resolveCmd ⟨mapW, ""⟩ "iscsiadm" ["-m"] = ("/usr/local/bin/iscsiadm", ["-m"]) ∧
    resolveCmd ⟨mapW, ""⟩ "mount" [] = ("mount", []) ∧
    resolveCmd ⟨mapW, ""⟩ "blank" [] = ("blank", []) :=
  ⟨(resolveCmd_spec ⟨mapW, ""⟩ "iscsiadm" ["-m"]).1 "/usr/local/bin/iscsiadm"
      rfl (by decide),
   (resolveCmd_spec ⟨mapW, ""⟩ "mount" []).2.1 rfl,
   (resolveCmd_spec ⟨mapW, ""⟩ "blank" []).2.2 rfl⟩

/-- C6: for every name containing a path separator, `wrapEnv` is the
identity, for every configuration and every filesystem state. -/
theorem wrapEnv_sep_identity (fs : FS) (h : hostexec) (name : String)
    (args : List String) (hsep : name.data.contains '/' = true) :
    wrapEnv fs h name args = (name, args) := by
  have hmem : '/' ∈ name.data := by simpa using hsep
  simp [wrapEnv, hmem]

/-- Witness for C6: an explicit path passes through even when chroot is
set and the filesystem would answer the probes. -/
theorem wrapEnv_sep_identity_witness :
    wrapEnv fsEnvPresent ⟨mapW, "/host"⟩ "/bin/ls" ["-l"] = ("/bin/ls", ["-l"]) :=
  wrapEnv_sep_identity fsEnvPresent ⟨mapW, "/host"⟩ "/bin/ls" ["-l"] (by decide)

/-- C7: `New` fails with the configuration error whenever the chroot
path is non-empty and does not stat as an existing directory, and it
always succeeds when the chroot path is empty, for every map and every
filesystem state. -/
theorem New_spec (fs : FS) (m : String → Option String) (R : String) :
    (R ≠ "" → statIsDir (fs.stat R) = false →
      New fs m R = .error "chroot directory does not exist or is not a directory") ∧
    (R = "" → New fs m R = .ok ⟨m, R⟩) := by
  constructor
  · intro hne hdir
    unfold New
    rw [if_pos hne]
    cases hs : fs.stat R with
    | ok d =>
      rw [hs] at hdir
      cases d with
      | true => simp [statIsDir] at hdir
      | false => simp
    | errNotExist => simp
    | errOther => simp
  · intro he
    simp [New, he]

/-- Witness for C7: a missing chroot directory is rejected; the empty
chroot path is accepted on the same filesystem. -/
theorem New_spec_witness :
    New fsEmpty mapW "/host" =
      .error "chroot directory does not exist or is not a directory" ∧
    New fsEmpty mapW "" = .ok ⟨mapW, ""⟩ :=
  ⟨(New_spec fsEmpty mapW "/host").1 (by decide) rfl,
   (New_spec fsEmpty mapW "").2 rfl⟩

/-- C8: `wrap` is deterministic: with the configuration and the
filesystem state fixed, equal inputs produce equal outputs. -/
theorem wrap_deterministic (fs : FS) (h : hostexec) (cmd₁ cmd₂ : String)
    (args₁ args₂ : List String) (hc : cmd₁ = cmd₂) (ha : args₁ = args₂) :
    wrap fs h cmd₁ args₁ = wrap fs h cmd₂ args₂ := by
  rw [hc, ha]

/-- Witness for C8 at a concrete configuration and input. -/
theorem wrap_deterministic_witness :
    wrap fsEnvPresent ⟨mapW, "/host"⟩ "foo" ["-x"] =
      wrap fsEnvPresent ⟨mapW, "/host"⟩ "foo" ["-x"] :=
  wrap_deterministic fsEnvPresent ⟨mapW, "/host"⟩ "foo" "foo" ["-x"] ["-x"] rfl rfl

/-- C1: with chroot enabled at root `R`, the name `foo` unmapped and the
env helper present at `R/usr/bin/env`, `wrap "foo" ["-x"]` invokes the
chroot program with the env rewrite inside:
`[R, "/usr/bin/env", "-i", "PATH=<joined defaultSearchPath>", "foo", "-x"]`. -/
theorem wrap_env_present (fs : FS) (h : hostexec) (R : String) (b : Bool)
    (hR : h.chrootDir = R) (hne : R ≠ "")
    (hmap : h.commandMap "foo" = none ∨ h.commandMap "foo" = some "")
    (henv : fs.stat (R ++ "/usr/bin/env") = .ok b) :
    wrap fs h "foo" ["-x"] =
      ("/usr/sbin/chroot",
        [R, "/usr/bin/env", "-i",
         "PATH=" ++ String.intercalate ":" defaultSearchPath, "foo", "-x"]) := by
  subst hR
  have h1 : resolveCmd h "foo" ["-x"] = ("foo", ["-x"]) := by
    rcases hmap with hm | hm <;> simp [resolveCmd, hm]
  have hsep : ("foo" : String).data.contains '/' = false := by decide
  simp [wrap, h1, wrapEnv, wrapChroot, hsep, hne, henv, statIsNotExist]

/-- Witness for C1: concrete chroot root `/host` with only the helper
present. -/
theorem wrap_env_present_witness :
    wrap fsEnvPresent ⟨fun _ => none, "/host"⟩ "foo" ["-x"] =
      ("/usr/sbin/chroot",
        ["/host", "/usr/bin/env", "-i",
         "PATH=" ++ String.intercalate ":" defaultSearchPath, "foo", "-x"]) :=
  wrap_env_present fsEnvPresent ⟨fun _ => none, "/host"⟩ "/host" false rfl
    (by decide) (Or.inl rfl) (by decide)

/-- C2: helper absent at `R/usr/bin/env`, the probe misses in the five
earlier search directories and hits `R/bin/foo`: the discovered path has
the chroot prefix stripped and the chroot wrapping re-adds `R`, giving
arguments `[R, "/bin/foo"]`. -/
theorem wrap_fallback_bin (fs : FS) (h : hostexec) (R : String)
    (hR : h.chrootDir = R) (hne : R ≠ "")
    (hmap : h.commandMap "foo" = none ∨ h.commandMap "foo" = some "")
    (henv : fs.stat (R ++ "/usr/bin/env") = .errNotExist)
    (hp1 : statOk (fs.stat (R ++ "/usr/local/sbin/foo")) = false)
    (hp2 : statOk (fs.stat (R ++ "/usr/local/bin/foo")) = false)
    (hp3 : statOk (fs.stat (R ++ "/usr/sbin/foo")) = false)
    (hp4 : statOk (fs.stat (R ++ "/usr/bin/foo")) = false)
    (hp5 : statOk (fs.stat (R ++ "/sbin/foo")) = false)
    (hp6 : statOk (fs.stat (R ++ "/bin/foo")) = true) :
    wrap fs h "foo" [] = ("/usr/sbin/chroot", [R, "/bin/foo"]) := by
  subst hR
  have h1 : resolveCmd h "foo" [] = ("foo", []) := by
    rcases hmap with hm | hm <;> simp [resolveCmd, hm]
  have hsep : ("foo" : String).data.contains '/' = false := by decide
  simp [wrap, h1, wrapEnv, wrapChroot, hsep, hne, henv, statIsNotExist,
        findInSearchPath, defaultSearchPath, hp1, hp2, hp3, hp4, hp5, hp6,
        trimPfx_append]

/-- Witness for C2: concrete chroot root `/host` where only
`/host/bin/foo` exists. -/
theorem wrap_fallback_bin_witness :
    wrap fsBinFoo ⟨fun _ => none, "/host"⟩ "foo" [] =
      ("/usr/sbin/chroot", ["/host", "/bin/foo"]) :=
  wrap_fallback_bin fsBinFoo ⟨fun _ => none, "/host"⟩ "/host" rfl (by decide)
    (Or.inl rfl) (by decide) (by decide) (by decide) (by decide) (by decide)
    (by decide) (by decide)

/-- C3: helper absent and every search-path probe missing: `wrapEnv`
degrades to the identity without error and the chroot wrapping still
applies, giving arguments `[R, "foo"]`. -/
theorem wrap_identity_fallback (fs : FS) (h : hostexec) (R : String)
    (hR : h.chrootDir = R) (hne : R ≠ "")
    (hmap : h.commandMap "foo" = none ∨ h.commandMap "foo" = some "")
    (henv : fs.stat (R ++ "/usr/bin/env") = .errNotExist)
    (hp1 : statOk (fs.stat (R ++ "/usr/local/sbin/foo")) = false)
    (hp2 : statOk (fs.stat (R ++ "/usr/local/bin/foo")) = false)
    (hp3 : statOk (fs.stat (R ++ "/usr/sbin/foo")) = false)
    (hp4 : statOk (fs.stat (R ++ "/usr/bin/foo")) = false)
    (hp5 : statOk (fs.stat (R ++ "/sbin/foo")) = false)
    (hp6 : statOk (fs.stat (R ++ "/bin/foo")) = false) :
    wrap fs h "foo" [] = ("/usr/sbin/chroot", [R, "foo"]) := by
  subst hR
  have h1 : resolveCmd h "foo" [] = ("foo", []) := by
    rcases hmap with hm | hm <;> simp [resolveCmd, hm]
  have hsep : ("foo" : String).data.contains '/' = false := by decide
  simp [wrap, h1, wrapEnv, wrapChroot, hsep, hne, henv, statIsNotExist,
        findInSearchPath, defaultSearchPath, hp1, hp2, hp3, hp4, hp5, hp6]

/-- Witness for C3: concrete chroot root `/host` on the empty
filesystem. -/
theorem wrap_identity_fallback_witness :
    wrap fsEmpty ⟨fun _ => none, "/host"⟩ "foo" [] =
      ("/usr/sbin/chroot", ["/host", "foo"]) :=
  wrap_identity_fallback fsEmpty ⟨fun _ => none, "/host"⟩ "/host" rfl (by decide)
    (Or.inl rfl) rfl rfl rfl rfl rfl rfl rfl

/-- C4: a name remapped to a value `v` that itself contains a path
separator skips the environment stage entirely: the result is exactly
the chroot wrapping of `(v, args)`, and it is independent of the
filesystem state (no helper check, no search-path probe). -/
theorem wrap_mapped_path (fs fs2 : FS) (h : hostexec) (name v : String)
    (args : List String) (hmap : h.commandMap name = some v) (hv : v ≠ "")
    (hsep : v.data.contains '/' = true) :
    wrap fs h name args = wrapChroot h v args ∧
    wrap fs h name args = wrap fs2 h name args := by
  have h1 : resolveCmd h name args = (v, args) := by simp [resolveCmd, hmap, hv]
  have hmem : '/' ∈ v.data := by simpa using hsep
  constructor <;> simp [wrap, h1, wrapEnv, hmem]

/-- Witness for C4: a name mapped to an explicit path, compared across
two different filesystem states. -/
theorem wrap_mapped_path_witness :
    wrap fsEmpty ⟨mapW, "/host"⟩ "iscsiadm" ["-m"] =
      wrapChroot ⟨mapW, "/host"⟩ "/usr/local/bin/iscsiadm" ["-m"] ∧
    wrap fsEmpty ⟨mapW, "/host"⟩ "iscsiadm" ["-m"] =
      wrap fsEnvPresent ⟨mapW, "/host"⟩ "iscsiadm" ["-m"] :=
  wrap_mapped_path fsEmpty fsEnvPresent ⟨mapW, "/host"⟩ "iscsiadm"
    "/usr/local/bin/iscsiadm" ["-m"] rfl (by decide) (by decide)

/-- C10: for a separator-free name, whenever the helper stat does not
fail with a not-exist error — including a failure for any other reason,
such as permission denied — `wrapEnv` takes the env rewrite, so the
search-path probe runs only on a not-exist error. -/
theorem wrapEnv_env_unless_notExist (fs : FS) (h : hostexec) (name : String)
    (args : List String) (hsep : name.data.contains '/' = false)
    (hstat : statIsNotExist
      (fs.stat (if h.chrootDir ≠ "" then h.chrootDir ++ "/usr/bin/env"
                else "/usr/bin/env")) = false) :
    wrapEnv fs h name args =
      ("/usr/bin/env",
        "-i" :: ("PATH=" ++ String.intercalate ":" defaultSearchPath)
          :: name :: args) := by
  have hmem : '/' ∉ name.data := by simpa using hsep
  by_cases hc : h.chrootDir = "" <;>
    simp [hc] at hstat <;> simp [wrapEnv, hmem, hc, hstat]

/-- Witness for C10: stat of the helper fails with an error other than
not-exist and the invocation is still rewritten through the helper. -/
theorem wrapEnv_env_unless_notExist_witness :
    wrapEnv fsEnvDenied ⟨fun _ => none, "/host"⟩ "foo" ["-x"] =
      ("/usr/bin/env",
        "-i" :: ("PATH=" ++ String.intercalate ":" defaultSearchPath)
          :: "foo" :: ["-x"]) :=
  wrapEnv_env_unless_notExist fsEnvDenied ⟨fun _ => none, "/host"⟩ "foo" ["-x"]
    (by decide) (by decide)

/-- Stage 1 never changes the argument list. -/
theorem resolveCmd_snd (h : hostexec) (cmd : String) (args : List String) :
    (resolveCmd h cmd args).2 = args := by
  unfold resolveCmd
  cases h.commandMap cmd with
  | none => rfl
  | some c => by_cases hc : c = "" <;> simp [hc]

/-- Stage 2 only ever prepends to the argument list. -/
theorem wrapEnv_suffix (fs : FS) (h : hostexec) (cmd : String)
    (args : List String) : args <:+ (wrapEnv fs h cmd args).2 := by
  unfold wrapEnv
  split
  · exact List.suffix_refl args
  · split <;> split <;> dsimp only <;> (try split) <;>
      first
        | exact List.suffix_refl args
        | exact ⟨["-i", "PATH=" ++ String.intercalate ":" defaultSearchPath, cmd],
            rfl⟩

/-- Stage 3 only ever prepends to the argument list. -/
theorem wrapChroot_suffix (h : hostexec) (cmd : String) (args : List String) :
    args <:+ (wrapChroot h cmd args).2 := by
  unfold wrapChroot
  split
  · exact List.suffix_refl args
  · exact ⟨[h.chrootDir, cmd], rfl⟩

/-- C9: for every name, argument list, configuration and filesystem
state, the caller's arguments form an ordered suffix of the argument
list `wrap` returns: each stage either leaves them unchanged or
prepends in front of them. -/
theorem wrap_args_suffix (fs : FS) (h : hostexec) (cmd : String)
    (args : List String) : args <:+ (wrap fs h cmd args).2 := by
  simp only [wrap]
  rw [resolveCmd_snd h cmd args]
  exact (wrapEnv_suffix fs h (resolveCmd h cmd args).1 args).trans
    (wrapChroot_suffix h _ _)
